import Mathlib

/-
  Verification of the conversational wizard engine of the zakariyyo-bot
  repository (Telegram order-intake bot).

  The Python sources `app/db.py`, `app/handlers/confirm.py` and
  `app/handlers/order.py` are shallowly embedded below: pure validators
  become Lean functions on `String` / `List Char`; the SQLite `confirms`
  table becomes an explicit list of rows; the commit handler becomes a
  pure function from a draft, a batch, an environment (file system,
  external-call outcomes) and a database to a result record.
-/

namespace ZBot

/-! Part: Character primitives (Python string semantics) -/

/-- Codepoint arithmetic for constructed characters: `Char.ofNat n` for a
codepoint below the surrogate range keeps the codepoint. -/
theorem toNat_ofNat_chr (n : Nat) (h : n < 55296) : (Char.ofNat n).toNat = n := by
  have hv : n.isValidChar := Or.inl h
  simp only [Char.ofNat, dif_pos hv, Char.ofNatAux, Char.toNat]
  simp [UInt32.toNat, BitVec.toNat_ofNat]

/-- Whitespace class of Python `str.strip` and of the regex class `\s`
(ASCII part): tab, LF, VT, FF, CR, space. -/
def pyIsWs (c : Char) : Bool :=
  decide (c.toNat = 9 ∨ c.toNat = 10 ∨ c.toNat = 11 ∨ c.toNat = 12 ∨
          c.toNat = 13 ∨ c.toNat = 32)

/-- Decimal-digit class used by the bot's regexes (`\d` / `\D` on its inputs). -/
def pyIsDigit (c : Char) : Bool :=
  decide (48 ≤ c.toNat ∧ c.toNat ≤ 57)

/-- Letter class of the quantity regex `[a-zA-Zа-яА-ЯёЁ]`. -/
def reLetter (c : Char) : Bool :=
  decide ((97 ≤ c.toNat ∧ c.toNat ≤ 122) ∨ (65 ≤ c.toNat ∧ c.toNat ≤ 90) ∨
          (1072 ≤ c.toNat ∧ c.toNat ≤ 1103) ∨ (1040 ≤ c.toNat ∧ c.toNat ≤ 1071) ∨
          c.toNat = 1105 ∨ c.toNat = 1025)

/-- Model of Python `str.lower` on the alphabets this bot handles
(ASCII `A`-`Z` and the Cyrillic block `А`-`Я`, `Ё`). -/
def pyLowerChar (c : Char) : Char :=
  if 65 ≤ c.toNat ∧ c.toNat ≤ 90 then Char.ofNat (c.toNat + 32)
  else if 1040 ≤ c.toNat ∧ c.toNat ≤ 1071 then Char.ofNat (c.toNat + 32)
  else if c.toNat = 1025 then Char.ofNat 1105
  else c

/-- Model of Python `str.upper` on the alphabets this bot handles
(ASCII `a`-`z` and the Cyrillic block `а`-`я`, `ё`). -/
def pyUpperChar (c : Char) : Char :=
  if 97 ≤ c.toNat ∧ c.toNat ≤ 122 then Char.ofNat (c.toNat - 32)
  else if 1072 ≤ c.toNat ∧ c.toNat ≤ 1103 then Char.ofNat (c.toNat - 32)
  else if c.toNat = 1105 then Char.ofNat 1025
  else c

/-- Python `str.strip()` on a character list: drop whitespace at both ends. -/
def stripL (l : List Char) : List Char :=
  ((l.dropWhile pyIsWs).reverse.dropWhile pyIsWs).reverse

/-- Python `str.strip()` on a string. -/
def pyStrip (s : String) : String := ⟨stripL s.data⟩

/-- Python `str.lower()` on a string (model, see `pyLowerChar`). -/
def pyLower (s : String) : String := ⟨s.data.map pyLowerChar⟩

/-- Python `str.upper()` on a string (model, see `pyUpperChar`). -/
def pyUpper (s : String) : String := ⟨s.data.map pyUpperChar⟩

/-- Characters kept by `re.sub(r"\D", "", s)`: the digits, in order. -/
def digitsL (l : List Char) : List Char := l.filter pyIsDigit

/-- Source function `_digits_only` (both handler modules). -/
def _digits_only (s : String) : String := ⟨digitsL s.data⟩

/-- Python `int` conversion of a nonempty digit string. -/
def natOfDigits (l : List Char) : Nat :=
  l.foldl (fun n c => 10 * n + (c.toNat - 48)) 0

/-! Part: Character-class lemmas -/

theorem pyUpperChar_eq_self (c : Char)
    (h1 : ¬(97 ≤ c.toNat ∧ c.toNat ≤ 122))
    (h2 : ¬(1072 ≤ c.toNat ∧ c.toNat ≤ 1103))
    (h3 : ¬ c.toNat = 1105) : pyUpperChar c = c := by
  unfold pyUpperChar
  rw [if_neg h1, if_neg h2, if_neg h3]

theorem pyLowerChar_eq_self (c : Char)
    (h1 : ¬(65 ≤ c.toNat ∧ c.toNat ≤ 90))
    (h2 : ¬(1040 ≤ c.toNat ∧ c.toNat ≤ 1071))
    (h3 : ¬ c.toNat = 1025) : pyLowerChar c = c := by
  unfold pyLowerChar
  rw [if_neg h1, if_neg h2, if_neg h3]

theorem pyIsWs_pyUpperChar (c : Char) : pyIsWs (pyUpperChar c) = pyIsWs c := by
  unfold pyUpperChar
  split_ifs with h1 h2 h3
  · have ht : (Char.ofNat (c.toNat - 32)).toNat = c.toNat - 32 :=
      toNat_ofNat_chr _ (by omega)
    simp only [pyIsWs, decide_eq_decide, ht]
    omega
  · have ht : (Char.ofNat (c.toNat - 32)).toNat = c.toNat - 32 :=
      toNat_ofNat_chr _ (by omega)
    simp only [pyIsWs, decide_eq_decide, ht]
    omega
  · have ht : (Char.ofNat 1025).toNat = 1025 := toNat_ofNat_chr _ (by omega)
    simp only [pyIsWs, decide_eq_decide, ht]
    omega
  · rfl

theorem pyUpperChar_idem (c : Char) :
    pyUpperChar (pyUpperChar c) = pyUpperChar c := by
  by_cases h1 : 97 ≤ c.toNat ∧ c.toNat ≤ 122
  · have hstep : pyUpperChar c = Char.ofNat (c.toNat - 32) := by
      unfold pyUpperChar; rw [if_pos h1]
    have ht : (Char.ofNat (c.toNat - 32)).toNat = c.toNat - 32 :=
      toNat_ofNat_chr _ (by omega)
    rw [hstep]
    exact pyUpperChar_eq_self _ (by omega) (by omega) (by omega)
  · by_cases h2 : 1072 ≤ c.toNat ∧ c.toNat ≤ 1103
    · have hstep : pyUpperChar c = Char.ofNat (c.toNat - 32) := by
        unfold pyUpperChar; rw [if_neg h1, if_pos h2]
      have ht : (Char.ofNat (c.toNat - 32)).toNat = c.toNat - 32 :=
        toNat_ofNat_chr _ (by omega)
      rw [hstep]
      exact pyUpperChar_eq_self _ (by omega) (by omega) (by omega)
    · by_cases h3 : c.toNat = 1105
      · have hstep : pyUpperChar c = Char.ofNat 1025 := by
          unfold pyUpperChar; rw [if_neg h1, if_neg h2, if_pos h3]
        have ht : (Char.ofNat 1025).toNat = 1025 := toNat_ofNat_chr _ (by omega)
        rw [hstep]
        exact pyUpperChar_eq_self _ (by omega) (by omega) (by omega)
      · rw [pyUpperChar_eq_self c h1 h2 h3, pyUpperChar_eq_self c h1 h2 h3]

theorem pyLowerChar_of_digit (c : Char) (h : pyIsDigit c = true) :
    pyLowerChar c = c := by
  have hc : 48 ≤ c.toNat ∧ c.toNat ≤ 57 := by
    simpa [pyIsDigit] using h
  exact pyLowerChar_eq_self c (by omega) (by omega) (by omega)

theorem pyIsDigit_pyLowerChar (c : Char) :
    pyIsDigit (pyLowerChar c) = pyIsDigit c := by
  unfold pyLowerChar
  split_ifs with h1 h2 h3
  · have ht : (Char.ofNat (c.toNat + 32)).toNat = c.toNat + 32 :=
      toNat_ofNat_chr _ (by omega)
    simp only [pyIsDigit, decide_eq_decide, ht]
    omega
  · have ht : (Char.ofNat (c.toNat + 32)).toNat = c.toNat + 32 :=
      toNat_ofNat_chr _ (by omega)
    simp only [pyIsDigit, decide_eq_decide, ht]
    omega
  · have ht : (Char.ofNat 1105).toNat = 1105 := toNat_ofNat_chr _ (by omega)
    simp only [pyIsDigit, decide_eq_decide, ht]
    omega
  · rfl

theorem pyIsWs_not_digit (c : Char) (h : pyIsWs c = true) :
    pyIsDigit c = false := by
  have hc := of_decide_eq_true h
  simp only [pyIsDigit, decide_eq_false_iff_not]
  omega

theorem pyIsDigit_not_ws (c : Char) (h : pyIsDigit c = true) :
    pyIsWs c = false := by
  have hc := of_decide_eq_true h
  simp only [pyIsWs, decide_eq_false_iff_not]
  omega

/-! Part: Strip lemmas -/

theorem dropWhile_head_false {p : Char → Bool} :
    ∀ {l : List Char} {c : Char} {t : List Char},
      l.dropWhile p = c :: t → p c = false := by
  intro l
  induction l with
  | nil => intro c t h; simp at h
  | cons x xs ih =>
    intro c t h
    rw [List.dropWhile_cons] at h
    by_cases hx : p x = true
    · rw [if_pos hx] at h; exact ih h
    · rw [if_neg hx] at h
      obtain ⟨rfl, _⟩ := List.cons.inj h
      exact Bool.eq_false_iff.mpr hx

theorem dropWhile_eq_self_of_head {p : Char → Bool} {l : List Char}
    (h : ∀ c, l.head? = some c → p c = false) : l.dropWhile p = l := by
  cases l with
  | nil => rfl
  | cons x xs =>
    rw [List.dropWhile_cons, if_neg]
    rw [h x rfl]
    simp

theorem dropWhile_idem {p : Char → Bool} (l : List Char) :
    (l.dropWhile p).dropWhile p = l.dropWhile p := by
  apply dropWhile_eq_self_of_head
  intro c hc
  cases hd : l.dropWhile p with
  | nil => rw [hd] at hc; simp at hc
  | cons y ys =>
    rw [hd] at hc
    simp only [List.head?] at hc
    obtain rfl := Option.some.inj hc
    exact dropWhile_head_false hd

theorem getLast?_dropWhile {p : Char → Bool} :
    ∀ (l : List Char), l.dropWhile p ≠ [] →
      (l.dropWhile p).getLast? = l.getLast? := by
  intro l
  induction l with
  | nil => intro h; simp at h
  | cons x xs ih =>
    intro h
    rw [List.dropWhile_cons]
    by_cases hx : p x = true
    · rw [if_pos hx]
      rw [List.dropWhile_cons, if_pos hx] at h
      cases hxs : xs with
      | nil => rw [hxs] at h; simp at h
      | cons y ys =>
        rw [← hxs, ih h, hxs, List.getLast?_cons_cons]
    · rw [if_neg hx]

/-- The result of `stripL` starts and ends with non-whitespace, so stripping
again changes nothing. -/
theorem stripL_idem (l : List Char) : stripL (stripL l) = stripL l := by
  unfold stripL
  set t1 := l.dropWhile pyIsWs with ht1
  set t2 := t1.reverse.dropWhile pyIsWs with ht2
  have hinner : t2.reverse.dropWhile pyIsWs = t2.reverse := by
    apply dropWhile_eq_self_of_head
    intro c hc
    rw [List.head?_reverse] at hc
    have hne : t2 ≠ [] := by
      intro hnil
      rw [hnil] at hc; simp at hc
    have hlast : t2.getLast? = t1.reverse.getLast? := by
      rw [ht2]; exact getLast?_dropWhile _ (by rw [← ht2]; exact hne)
    rw [hlast, List.getLast?_reverse] at hc
    cases hd : t1 with
    | nil => rw [hd] at hc; simp at hc
    | cons y ys =>
      rw [hd] at hc
      simp only [List.head?] at hc
      obtain rfl := Option.some.inj hc
      exact dropWhile_head_false (ht1.symm.trans hd)
  rw [hinner, List.reverse_reverse]
  have : t2.dropWhile pyIsWs = t2 := by
    rw [ht2]; exact dropWhile_idem _
  rw [this]

/-- A list whose first and last characters are not whitespace is unchanged
by stripping. -/
theorem stripL_eq_self {l : List Char}
    (hh : ∀ c, l.head? = some c → pyIsWs c = false)
    (hl : ∀ c, l.getLast? = some c → pyIsWs c = false) : stripL l = l := by
  unfold stripL
  rw [dropWhile_eq_self_of_head hh]
  rw [dropWhile_eq_self_of_head (by
    intro c hc
    rw [List.head?_reverse] at hc
    exact hl c hc)]
  exact List.reverse_reverse l

/-- Stripping commutes with mapping a whitespace-preserving character map. -/
theorem stripL_map (f : Char → Char) (hf : ∀ c, pyIsWs (f c) = pyIsWs c)
    (l : List Char) : stripL (l.map f) = (stripL l).map f := by
  have hcomp : (pyIsWs ∘ f) = pyIsWs := funext hf
  unfold stripL
  rw [List.dropWhile_map, hcomp, ← List.map_reverse, List.dropWhile_map,
    hcomp, ← List.map_reverse]

theorem digitsL_dropWhile_ws (l : List Char) :
    digitsL (l.dropWhile pyIsWs) = digitsL l := by
  conv_rhs => rw [← List.takeWhile_append_dropWhile (p := pyIsWs) (l := l)]
  unfold digitsL
  rw [List.filter_append]
  have : (l.takeWhile pyIsWs).filter pyIsDigit = [] := by
    rw [List.filter_eq_nil_iff]
    intro a ha
    rw [pyIsWs_not_digit a (List.mem_takeWhile_imp ha)]
    simp
  rw [this, List.nil_append]

/-- Stripping surrounding whitespace does not change the digit subsequence. -/
theorem digitsL_stripL (l : List Char) : digitsL (stripL l) = digitsL l := by
  unfold stripL digitsL
  rw [List.filter_reverse]
  have h1 : List.filter pyIsDigit
        ((l.dropWhile pyIsWs).reverse.dropWhile pyIsWs)
      = List.filter pyIsDigit (l.dropWhile pyIsWs).reverse :=
    digitsL_dropWhile_ws _
  rw [h1, List.filter_reverse, List.reverse_reverse]
  exact digitsL_dropWhile_ws l

/-! Part: String-level normalization lemmas -/

theorem data_mk (l : List Char) : (⟨l⟩ : String).data = l := rfl

theorem pyStrip_idem (s : String) : pyStrip (pyStrip s) = pyStrip s := by
  unfold pyStrip
  rw [data_mk, stripL_idem]

theorem pyStrip_pyUpper_comm (s : String) :
    pyStrip (pyUpper s) = pyUpper (pyStrip s) := by
  unfold pyStrip pyUpper
  rw [data_mk, data_mk, stripL_map pyUpperChar pyIsWs_pyUpperChar]

theorem pyUpper_idem (s : String) : pyUpper (pyUpper s) = pyUpper s := by
  unfold pyUpper
  rw [data_mk, List.map_map]
  have : s.data.map (pyUpperChar ∘ pyUpperChar) = s.data.map pyUpperChar :=
    List.map_congr_left (fun a _ => pyUpperChar_idem a)
  rw [this]

/-- The brand key `brand.strip().upper()` is a fixpoint of stripping. -/
theorem pyStrip_brand_key (s : String) :
    pyStrip (pyUpper (pyStrip s)) = pyUpper (pyStrip s) := by
  rw [pyStrip_pyUpper_comm, pyStrip_idem]

/-- The brand key `brand.strip().upper()` is a fixpoint of upper-casing. -/
theorem pyUpper_brand_key (s : String) :
    pyUpper (pyUpper (pyStrip s)) = pyUpper (pyStrip s) :=
  pyUpper_idem _

/-! Part: Validators (source: `app/handlers/confirm.py`, `app/handlers/order.py`) -/

/-- Source function `_normalize_phone_uz` from `app/handlers/confirm.py`
(`app/handlers/order.py` carries a character-identical copy). -/
def _normalize_phone_uz (s : String) : String :=
  let digits := _digits_only s
  if digits = ("") then ("")
  else if digits.length = 9 then ("+998") ++ digits
  else if digits.length = 12 ∧ digits.data.take 3 = ['9', '9', '8'] then
    ("+") ++ digits
  else if 12 < digits.length then
    ("+998") ++ ⟨digits.data.drop (digits.length - 9)⟩
  else if 9 < digits.length ∧ digits.length < 12 then
    ("+998") ++ ⟨digits.data.drop (digits.length - 9)⟩
  else ("+") ++ digits

/-- Python `str.split(sep)` (split on every occurrence) on character lists. -/
def splitOnChar (sep : Char) : List Char → List (List Char)
  | [] => [[]]
  | c :: rest =>
    if c = sep then [] :: splitOnChar sep rest
    else
      match splitOnChar sep rest with
      | [] => [[c]]
      | h :: t => (c :: h) :: t

/-- Python `sep.join(parts)` on character lists. -/
def joinChar (sep : Char) : List (List Char) → List Char
  | [] => []
  | [l] => l
  | l :: ls => l ++ sep :: joinChar sep ls

/-- Python `s.split("-", maxsplit=2)`: at most two cuts, the remainder kept
whole as the final field. -/
def splitDash2 (l : List Char) : List (List Char) :=
  let ps := splitOnChar ('-') l
  if ps.length ≤ 3 then ps else ps.take 2 ++ [joinChar ('-') (ps.drop 2)]

/-- Source function `_parse_brand_client_phone` from `app/handlers/confirm.py`
(`_parse_brand_name_phone` in `app/handlers/order.py` differs only in
collapsing inner whitespace of the brand). -/
def _parse_brand_client_phone (s : String) :
    Option (String × String × String) :=
  match (splitDash2 (stripL s.data)).map (fun p => stripL p) with
  | [p0, p1, p2] =>
    let brand := pyUpper (pyStrip ⟨p0⟩)
    let client := pyStrip ⟨p1⟩
    let phone_plus := _normalize_phone_uz ⟨p2⟩
    if brand = ("") ∨ client = ("") ∨ phone_plus = ("") then none
    else some (brand, client, phone_plus)
  | _ => none

/-- Match of the quantity regex `^\s*(\d[\d\s]*)\s*([a-zA-Zа-яА-ЯёЁ]*)\s*$`:
on success returns (group 1, group 2). -/
def qtyMatch (l : List Char) : Option (List Char × List Char) :=
  let l1 := l.dropWhile pyIsWs
  match l1 with
  | [] => none
  | c :: _ =>
    if pyIsDigit c then
      let num := l1.takeWhile (fun x => pyIsDigit x || pyIsWs x)
      let rest := l1.dropWhile (fun x => pyIsDigit x || pyIsWs x)
      let unitPart := rest.takeWhile reLetter
      let tail := rest.dropWhile reLetter
      if tail.all pyIsWs then some (num, unitPart) else none
    else none

/-- Source function `_parse_qty_and_unit` from `app/handlers/confirm.py`:
returns (quantity, latin unit label, russian unit label). -/
def _parse_qty_and_unit (s : String) : Option Nat × String × String :=
  let t := pyStrip (pyLower s)
  if t = ("") then (none, (""), (""))
  else
    match qtyMatch t.data with
    | some (numPart, unitPart) =>
      let num := digitsL numPart
      if num = [] then (none, (""), (""))
      else
        let qty := natOfDigits num
        let unit := pyStrip (pyLower ⟨unitPart⟩)
        if unit = ("sht") ∨ unit = ("sh") ∨ unit = ("шт") ∨
           unit = ("sht.") ∨ unit = ("sh.") then
          (some qty, ("sht"), ("шт"))
        else if unit = ("rulon") ∨ unit = ("рулон") ∨ unit = ("rul") ∨
                unit = ("rul.") then
          (some qty, ("rulon"), ("рулон"))
        else if unit = ("kg") ∨ unit = ("кг") then
          (some qty, ("kg"), ("кг"))
        else (some qty, unit, unit)
    | none =>
      let d := digitsL t.data
      ((if d = [] then none else some (natOfDigits d)), (""), (""))

/-- States of the order-confirmation conversation that the embedded
handlers distinguish (`ended` stands for `ConversationHandler.END`). -/
inductive CfState where
  | photo
  | kind
  | size
  | bg
  | qty
  | channel
  | group
  | price
  | review
  | ended
deriving DecidableEq

/-- The chained transformation of `on_size` after the strip: lower, replace
Cyrillic `х` (U+0445) by `x`, replace `*` by `x`, remove spaces. -/
def sizePipe (l : List Char) : List Char :=
  (((l.map pyLowerChar).map
      (fun c => if c = ('х') then ('x') else c)).map
      (fun c => if c = ('*') then ('x') else c)).filter
      (fun c => decide (c ≠ (' ')))

/-- Normalization performed by `on_size` (`app/handlers/confirm.py` line 798):
strip, lower, replace Cyrillic `х` (U+0445) and `*` by `x`, drop spaces. -/
def sizeNormalize (s : String) : String :=
  ⟨sizePipe (stripL s.data)⟩

/-- Source handler `on_size`: accept and store the normalized size iff it
contains the canonical separator, else re-prompt the same state. -/
def on_size (input : String) : Option String × CfState :=
  let s := sizeNormalize input
  if ('x') ∈ s.data then (some s, CfState.bg) else (none, CfState.size)

/-- Source function `_parse_amount` from `app/handlers/order.py`: digits
only, card-number guard at 13 digits, inclusive range 1000 to 500000000. -/
def _parse_amount (s : String) : Option Nat :=
  let d := _digits_only s
  if d = ("") then none
  else if 13 ≤ d.length then none
  else
    let val := natOfDigits d.data
    if 1000 ≤ val ∧ val ≤ 500000000 then some val else none

/-- States of the payment-intake conversation used by the embedded
amount step. -/
inductive PayState where
  | amountDate
  | channel
  | review
deriving DecidableEq

/-- Amount branch of `handle_manual_amount_date` (`app/handlers/order.py`
lines 397-413) for the cash flow: a rejected amount re-prompts the same
state, an accepted amount is stored and the flow moves on. -/
def handle_manual_amount_cash (text : String) (amount0 : Option Nat)
    (hasChannel : Bool) : Option Nat × PayState :=
  match _parse_amount text with
  | none => (amount0, PayState.amountDate)
  | some a =>
    (some a, if hasChannel then PayState.review else PayState.channel)

example : _normalize_phone_uz ("91 017 52 53") = ("+998910175253") := by decide
example : _normalize_phone_uz ("+998910175253") = ("+998910175253") := by decide
example : _normalize_phone_uz ("8 998 910175253") = ("+998910175253") := by decide
example : _normalize_phone_uz ("") = ("") := by decide
example : _parse_brand_client_phone ("LEAP-Akmal-910175253") =
    some (("LEAP"), ("Akmal"), ("+998910175253")) := by decide
example : _parse_brand_client_phone ("LEAP-Akmal-910-175253") =
    some (("LEAP"), ("Akmal"), ("+998910175253")) := by decide
example : _parse_brand_client_phone ("just a query") = none := by decide
example : _parse_qty_and_unit ("3000") = (some 3000, (""), ("")) := by decide
example : _parse_qty_and_unit ("3000 sht") = (some 3000, ("sht"), ("шт")) := by decide
example : _parse_qty_and_unit ("3000 kg") = (some 3000, ("kg"), ("кг")) := by decide
example : _parse_qty_and_unit ("abc") = (none, (""), ("")) := by decide
example : _parse_qty_and_unit ("abc3000") = (some 3000, (""), ("")) := by decide
example : sizeNormalize ("10x5") = ("10x5") := by decide
example : sizeNormalize ("10Х5") = ("10x5") := by decide
example : sizeNormalize ("10*5") = ("10x5") := by decide
example : sizeNormalize ("10 x 5") = ("10x5") := by decide
example : sizeNormalize ("10×5") = ("10×5") := by decide
example : on_size ("10×5") = (none, CfState.size) := by decide
example : _parse_amount ("5000000") = some 5000000 := by decide
example : _parse_amount ("999") = none := by decide
example : _parse_amount ("8600 1234 5678 9012") = none := by decide

/-! Part: Persistence model (source: `app/db.py`, table `confirms`) -/

/-- Status column of a confirmation record. -/
inductive CStatus where
  | OPEN
  | DONE
deriving DecidableEq

/-- One row of the `confirms` table. `done_at` is abstracted to a flag
recording whether the completion timestamp was written. -/
structure ConfirmRow where
  id : Nat
  operator_id : Int
  brand : String
  client_name : String
  phone_plus : String
  counterparty_meta : String
  status : CStatus
  done_at : Bool
deriving DecidableEq

/-- The `confirms` table with its autoincrement counter. -/
structure ConfirmDB where
  rows : List ConfirmRow
  nextId : Nat
deriving DecidableEq

/-- Source function `create_confirm` (`app/db.py` lines 85-117): plain
insert of a new OPEN row, returning the fresh row id. -/
def create_confirm (db : ConfirmDB) (operator_id : Int)
    (brand client_name phone_plus meta : String) : ConfirmDB × Nat :=
  let row : ConfirmRow :=
    { id := db.nextId, operator_id := operator_id, brand := pyStrip brand,
      client_name := pyStrip client_name, phone_plus := pyStrip phone_plus,
      counterparty_meta := meta, status := CStatus.OPEN, done_at := false }
  ({ rows := db.rows ++ [row], nextId := db.nextId + 1 }, db.nextId)

/-- Row condition of the upsert SELECT: same operator, OPEN, matching
normalized brand and phone keys. -/
def upsertCond (op : Int) (bk pk : String) (r : ConfirmRow) : Bool :=
  decide (r.operator_id = op ∧ r.status = CStatus.OPEN ∧
          pyUpper (pyStrip r.brand) = bk ∧ pyStrip r.phone_plus = pk)

/-- The row returned by `... ORDER BY id DESC LIMIT 1`: the matching row
with the greatest id. -/
def latestMatch (p : ConfirmRow → Bool) (rows : List ConfirmRow) :
    Option ConfirmRow :=
  rows.foldl
    (fun acc r =>
      if p r then
        match acc with
        | none => some r
        | some a => if a.id ≤ r.id then some r else some a
      else acc)
    none

/-- Source function `create_confirm_upsert` (`app/db.py` lines 120-184):
for a non-degenerate (operator, brand, phone) key, update the latest
matching OPEN row in place (new client name and counterparty meta) and
return its id, else insert; degenerate keys fall back to a plain insert. -/
def create_confirm_upsert (db : ConfirmDB) (operator_id : Int)
    (brand client_name phone_plus meta : String) : ConfirmDB × Nat :=
  let brand_key := pyUpper (pyStrip brand)
  let phone_key := pyStrip phone_plus
  let client_clean := pyStrip client_name
  if operator_id = 0 ∨ brand_key = ("") ∨ phone_key = ("") then
    create_confirm db operator_id brand client_name phone_plus meta
  else
    match latestMatch (upsertCond operator_id brand_key phone_key) db.rows with
    | some r =>
      ({ db with
          rows := db.rows.map (fun x =>
            if decide (x.operator_id = operator_id ∧ x.id = r.id ∧
                       x.status = CStatus.OPEN) then
              { x with client_name := client_clean, counterparty_meta := meta }
            else x) },
       r.id)
    | none => create_confirm db operator_id brand_key client_clean phone_key meta

/-- Row condition of the `mark_confirm_done` UPDATE. -/
def doneCond (op : Int) (cid : Nat) (r : ConfirmRow) : Bool :=
  decide (r.operator_id = op ∧ r.id = cid ∧ r.status = CStatus.OPEN)

/-- Source function `mark_confirm_done` (`app/db.py` lines 245-259): set
status DONE and the completion timestamp on the owner's OPEN row, and
report whether any row changed. -/
def mark_confirm_done (db : ConfirmDB) (op : Int) (cid : Nat) :
    ConfirmDB × Bool :=
  ({ db with
      rows := db.rows.map (fun r =>
        if doneCond op cid r then
          { r with status := CStatus.DONE, done_at := true }
        else r) },
   db.rows.any (doneCond op cid))

/-! Part: Draft, batch and commit model (source: `app/handlers/confirm.py`) -/

/-- The item-specific keys of the `confirm_data` session dict, the ones
`_clone_item_for_batch` snapshots. External references (channel, group)
are abstracted to their opaque meta strings. -/
structure DraftItem where
  item_type : String := ("")
  size : String := ("")
  bg_color : String := ("")
  text_color : String := ("")
  qm_note : String := ("")
  qty : Option Int := none
  qty_unit_lat : String := ("")
  qty_unit_ru : String := ("")
  price_uzs : Option Int := none
  sales_channel_meta : Option String := none
  sales_channel_name : String := ("")
  group_meta : Option String := none
  group_name : String := ("")
  image_path : String := ("")
deriving DecidableEq

/-- The full `confirm_data` session dict: counterparty context plus the
working item. An absent or empty counterparty meta dict is `none`. -/
structure ConfirmData where
  brand : String := ("")
  client_name : String := ("")
  phone_plus : String := ("")
  counterparty_meta : Option String := none
  item : DraftItem := {}
  moment_iso_override : String := ("")
deriving DecidableEq

/-- Source function `_item_is_complete`: every required field set, positive
quantity and price, channel and group chosen, image file present on disk
(`fs` is the set of existing paths). -/
def _item_is_complete (it : DraftItem) (fs : List String) : Bool :=
  decide (it.item_type ≠ ("")) && decide (it.size ≠ ("")) &&
  decide (it.bg_color ≠ ("")) && decide (it.text_color ≠ ("")) &&
  (match it.qty with | some n => decide (0 < n) | none => false) &&
  (match it.price_uzs with | some n => decide (0 < n) | none => false) &&
  it.sales_channel_meta.isSome && it.group_meta.isSome &&
  decide (it.image_path ≠ ("")) && fs.contains it.image_path

/-- Source function `_clone_item_for_batch`: deep-copy snapshot of the
item-specific fields. -/
def _clone_item_for_batch (d : ConfirmData) : DraftItem := d.item

/-- Source function `_get_locked_batch_channel`: the first batched item's
channel meta and name, or none for an empty batch. -/
def lockedChannel (batch : List DraftItem) : Option String × String :=
  match batch with
  | [] => (none, (""))
  | first :: _ => (first.sales_channel_meta, first.sales_channel_name)

/-- A sales channel row as produced by `get_sales_channels`. -/
structure Channel where
  id : String
  name : String
  meta : String
deriving DecidableEq

/-- The per-conversation state visible to the channel-pick handlers:
the draft, the accumulated batch and the channel map shown last. -/
structure ChanCtx where
  data : ConfirmData
  batch : List DraftItem
  channelsMap : List (String × Channel)
deriving DecidableEq

/-- Outcome of `on_channel_pick`: conversation end, the channel-conflict
confirmation prompt (stays in the channel state), or advance to the
product-group picker. -/
inductive PickOutcome where
  | ended
  | forcePrompt (lockedName chosenName : String)
  | toGroup
deriving DecidableEq

/-- Outcome of `on_channel_force`: re-open the channel picker, or advance
to the product-group picker. -/
inductive ForceOutcome where
  | reopenPicker
  | toGroup
deriving DecidableEq

/-- Store a sales channel into the working draft. -/
def setChan (ctx : ChanCtx) (m n : String) : ChanCtx :=
  { ctx with
      data := { ctx.data with
        item := { ctx.data.item with
          sales_channel_meta := some m, sales_channel_name := n } } }

/-- Source handler `on_channel_pick` (`app/handlers/confirm.py` lines
872-912): an unknown id ends the conversation; with a locked batch channel
a differing choice only shows the confirmation prompt (draft untouched),
an equal choice stores the locked channel; without a lock the chosen
channel is stored. -/
def on_channel_pick (ctx : ChanCtx) (sc_id : String) : ChanCtx × PickOutcome :=
  match ctx.channelsMap.lookup sc_id with
  | none => (ctx, PickOutcome.ended)
  | some ch =>
    match lockedChannel ctx.batch with
    | (some lm, ln) =>
      if ch.meta ≠ lm then (ctx, PickOutcome.forcePrompt ln ch.name)
      else (setChan ctx lm ln, PickOutcome.toGroup)
    | (none, _) => (setChan ctx ch.meta ch.name, PickOutcome.toGroup)

/-- Source handler `on_channel_force` (`app/handlers/confirm.py` lines
337-356), taking the action token parsed from the callback payload:
`retry` (and a vanished lock) re-opens the picker, anything else stores
the locked channel and advances. -/
def on_channel_force (ctx : ChanCtx) (action : String) :
    ChanCtx × ForceOutcome :=
  if action = ("retry") then (ctx, ForceOutcome.reopenPicker)
  else
    match lockedChannel ctx.batch with
    | (none, _) => (ctx, ForceOutcome.reopenPicker)
    | (some lm, ln) => (setChan ctx lm ln, ForceOutcome.toGroup)

/-! Part: Commit model (`on_review` send branch, `app/handlers/confirm.py`
lines 1037-1188) -/

/-- Environment of one commit attempt: the file system and the behavior of
the external collaborators. MoySklad product and order creation succeed
unless noted; `broadcastFails` makes `bot.send_photo` to the reporting
channel raise; `attachOrderFails` makes the order file attachment raise
(that call sits in its own try/except in the source). -/
structure SendEnv where
  fs : List String
  storeFound : Bool := true
  chatConfigured : Bool := true
  broadcastFails : Bool := false
  attachOrderFails : Bool := false
deriving DecidableEq

/-- Observable result of one commit attempt. `errorShown` is the message of
the error edit shown to the operator (none on success), `ordersCreated`
counts `create_customerorder` calls that completed in the external system,
`broadcastsSent` counts completed reporting-channel posts,
`markDoneCalled` and `sessionCleared` record whether the terminal
bookkeeping ran. -/
structure SendResult where
  state : CfState
  errorShown : Option String
  ordersCreated : Nat
  broadcastsSent : Nat
  markDoneCalled : Bool
  sessionCleared : Bool
deriving DecidableEq

/-- The per-item loop of the send branch (lines 1091-1163): re-validate the
item, create the product and the order, attach the file (failure swallowed),
then post to the reporting channel when configured — a raise anywhere else
aborts the loop carrying the counts reached so far. -/
def sendItemsLoop (env : SendEnv) :
    List DraftItem → Nat → Nat → Except (String × Nat × Nat) (Nat × Nat)
  | [], orders, sent => Except.ok (orders, sent)
  | it :: rest, orders, sent =>
    if _item_is_complete it env.fs = false then
      Except.error (("batch_item_incomplete"), orders, sent)
    else
      let orders1 := orders + 1
      if env.chatConfigured then
        if env.broadcastFails then
          Except.error (("broadcast_failed"), orders1, sent)
        else sendItemsLoop env rest orders1 (sent + 1)
      else sendItemsLoop env rest orders1 sent

/-- The send branch of the source handler `on_review`: precondition checks
(brand and counterparty present, working item complete), then the guarded
external submission of the batch plus the working item; on success the
owning record is marked DONE and the session is cleared, any raise inside
the try block surfaces the error edit and ends the conversation with
neither done. All paths return `ConversationHandler.END`. -/
def on_review_send (op : Int) (cid : Nat) (d : ConfirmData)
    (batch : List DraftItem) (env : SendEnv) (db : ConfirmDB) :
    SendResult × ConfirmDB :=
  let brand := pyStrip d.brand
  if brand = ("") ∨ d.counterparty_meta = none then
    ({ state := CfState.ended,
       errorShown := some ("Brend yoki Kontragent topilmadi."),
       ordersCreated := 0, broadcastsSent := 0,
       markDoneCalled := false, sessionCleared := false }, db)
  else if _item_is_complete d.item env.fs = false then
    ({ state := CfState.ended,
       errorShown := some ("Buyurtma toliq emas."),
       ordersCreated := 0, broadcastsSent := 0,
       markDoneCalled := false, sessionCleared := false }, db)
  else
    let items := batch ++ [_clone_item_for_batch d]
    if env.storeFound = false then
      ({ state := CfState.ended,
         errorShown := some ("MoySklad yuborishda xatolik: store_not_found"),
         ordersCreated := 0, broadcastsSent := 0,
         markDoneCalled := false, sessionCleared := false }, db)
    else
      match sendItemsLoop env items 0 0 with
      | Except.error (msg, orders, sent) =>
        ({ state := CfState.ended,
           errorShown := some (("MoySklad yuborishda xatolik: ") ++ msg),
           ordersCreated := orders, broadcastsSent := sent,
           markDoneCalled := false, sessionCleared := false }, db)
      | Except.ok (orders, sent) =>
        ({ state := CfState.ended, errorShown := none,
           ordersCreated := orders, broadcastsSent := sent,
           markDoneCalled := true, sessionCleared := true },
         (mark_confirm_done db op cid).1)

/-- Claim-side definition for C10, following the claim's wording: an
integer result exactly when the concatenated digits are nonempty, shorter
than 13 digits, and the value lies within 1000 to 500000000 inclusive. -/
def parse_amount_claim (s : String) : Option Nat :=
  let d := _digits_only s
  if d ≠ ("") ∧ d.length < 13 ∧ 1000 ≤ natOfDigits d.data ∧
     natOfDigits d.data ≤ 500000000 then
    some (natOfDigits d.data)
  else none

/-! Part: Claim theorems -/

/-- C5. Phone normalization: after stripping non-digits, a 9-digit number
gets the fixed prefix `+998`; a 12-digit number starting `998` gets `+`;
more than 12 digits are truncated to the trailing 9 and prefixed `+998`;
input with no digits is rejected with the empty string. -/
theorem C5_phone_normalization (s : String) :
    ((_digits_only s).length = 9 →
      _normalize_phone_uz s = ("+998") ++ _digits_only s) ∧
    ((_digits_only s).length = 12 →
      (_digits_only s).data.take 3 = ['9', '9', '8'] →
      _normalize_phone_uz s = ("+") ++ _digits_only s) ∧
    (12 < (_digits_only s).length →
      _normalize_phone_uz s =
        ("+998") ++ ⟨(_digits_only s).data.drop ((_digits_only s).length - 9)⟩) ∧
    (_digits_only s = ("") → _normalize_phone_uz s = ("")) := by
  refine ⟨?_, ?_, ?_, ?_⟩
  · intro h9
    have hne : ¬ _digits_only s = ("") := by
      intro he; rw [he] at h9; simp at h9
    simp only [_normalize_phone_uz]
    rw [if_neg hne, if_pos h9]
  · intro h12 htake
    have hne : ¬ _digits_only s = ("") := by
      intro he; rw [he] at h12; simp at h12
    simp only [_normalize_phone_uz]
    rw [if_neg hne, if_neg (by omega), if_pos ⟨h12, htake⟩]
  · intro hgt
    have hne : ¬ _digits_only s = ("") := by
      intro he; rw [he] at hgt; simp at hgt
    simp only [_normalize_phone_uz]
    rw [if_neg hne, if_neg (by omega),
      if_neg (fun hx => by omega), if_pos hgt]
  · intro he
    simp only [_normalize_phone_uz]
    rw [if_pos he]

/-- C5 witness: the theorem applied at concrete inputs for each branch. -/
theorem C5_phone_normalization_witness :
    _normalize_phone_uz ("91 017 52 53") = ("+998910175253") ∧
    _normalize_phone_uz ("+998910175253") = ("+998910175253") ∧
    _normalize_phone_uz ("8 998 910 17 52 53") = ("+998910175253") ∧
    _normalize_phone_uz ("abc") = ("") := by
  refine ⟨?_, ?_, ?_, ?_⟩
  · exact ((C5_phone_normalization ("91 017 52 53")).1 (by decide)).trans
      (by decide)
  · exact ((C5_phone_normalization ("+998910175253")).2.1 (by decide)
      (by decide)).trans (by decide)
  · exact ((C5_phone_normalization ("8 998 910 17 52 53")).2.2.1
      (by decide)).trans (by decide)
  · exact (C5_phone_normalization ("abc")).2.2.2 (by decide)

/-- C10. The payment amount parser accepts exactly the inputs whose
concatenated digits are a nonempty string of fewer than 13 digits with
value between 1000 and 500000000 inclusive (a bound the spec never states
for the payment flow), and a rejected amount re-prompts the amount state. -/
theorem C10_payment_amount_bounds (s : String) (a0 : Option Nat)
    (hc : Bool) :
    _parse_amount s = parse_amount_claim s ∧
    (_parse_amount s = none →
      handle_manual_amount_cash s a0 hc = (a0, PayState.amountDate)) := by
  constructor
  · simp only [_parse_amount, parse_amount_claim]
    by_cases h1 : _digits_only s = ("")
    · rw [if_pos h1, if_neg (fun hx => hx.1 h1)]
    · rw [if_neg h1]
      by_cases h2 : 13 ≤ (_digits_only s).length
      · rw [if_pos h2, if_neg (fun hx => by omega)]
      · rw [if_neg h2]
        by_cases h3 : 1000 ≤ natOfDigits (_digits_only s).data ∧
            natOfDigits (_digits_only s).data ≤ 500000000
        · rw [if_pos h3, if_pos ⟨h1, by omega, h3.1, h3.2⟩]
        · rw [if_neg h3, if_neg (fun hx => h3 ⟨hx.2.2.1, hx.2.2.2⟩)]
  · intro h
    simp only [handle_manual_amount_cash, h]

/-- C10 witness: the theorem applied at concrete inputs. -/
theorem C10_payment_amount_bounds_witness :
    _parse_amount ("5000000") = parse_amount_claim ("5000000") ∧
    handle_manual_amount_cash ("8600 1234 5678 9012") none false =
      (none, PayState.amountDate) :=
  ⟨(C10_payment_amount_bounds ("5000000") none false).1,
   (C10_payment_amount_bounds ("8600 1234 5678 9012") none false).2
     (by decide)⟩

/-- C9. `mark_confirm_done` reports a change exactly when the owner's OPEN
row exists; a no-change call leaves the table untouched; and a second call
on the updated table always reports no change and changes nothing, so the
OPEN to DONE transition is reported exactly once. -/
theorem C9_mark_done_idempotence (db : ConfirmDB) (op : Int) (cid : Nat) :
    ((mark_confirm_done db op cid).2 = true ↔
      ∃ r ∈ db.rows, r.operator_id = op ∧ r.id = cid ∧
        r.status = CStatus.OPEN) ∧
    ((mark_confirm_done db op cid).2 = false →
      (mark_confirm_done db op cid).1 = db) ∧
    (mark_confirm_done (mark_confirm_done db op cid).1 op cid).2 = false ∧
    (mark_confirm_done (mark_confirm_done db op cid).1 op cid).1 =
      (mark_confirm_done db op cid).1 := by
  have hpost : ∀ r ∈ (mark_confirm_done db op cid).1.rows,
      ¬ doneCond op cid r = true := by
    intro r hr
    simp only [mark_confirm_done, List.mem_map] at hr
    obtain ⟨x, _, rfl⟩ := hr
    by_cases hx : doneCond op cid x = true
    · rw [if_pos hx]
      simp [doneCond]
    · rw [if_neg hx]
      exact hx
  refine ⟨?_, ?_, ?_, ?_⟩
  · simp [mark_confirm_done, List.any_eq_true, doneCond]
  · intro h
    have hall := List.any_eq_false.mp h
    simp only [mark_confirm_done]
    have : db.rows.map (fun r =>
        if doneCond op cid r then
          { r with status := CStatus.DONE, done_at := true }
        else r) = db.rows :=
      (List.map_congr_left (fun r hr => if_neg (hall r hr))).trans
        (List.map_id _)
    rw [this]
  · have : (mark_confirm_done db op cid).1.rows.any (doneCond op cid)
        = false := List.any_eq_false.mpr hpost
    simp only [mark_confirm_done] at this ⊢
    exact this
  · simp only [mark_confirm_done]
    have : (mark_confirm_done db op cid).1.rows.map (fun r =>
        if doneCond op cid r then
          { r with status := CStatus.DONE, done_at := true }
        else r) = (mark_confirm_done db op cid).1.rows :=
      (List.map_congr_left (fun r hr => if_neg (hpost r hr))).trans
        (List.map_id _)
    simp only [mark_confirm_done] at this
    rw [this]

/-- C9 witness: a table with one OPEN row for operator 1, id 1 — the first
call reports a change and the second call reports none. -/
theorem C9_mark_done_idempotence_witness :
    (mark_confirm_done
      ⟨[⟨1, 1, ("LEAP"), ("Akmal"), ("+998910175253"), ("m"),
         CStatus.OPEN, false⟩], 2⟩ 1 1).2 = true ∧
    (mark_confirm_done (mark_confirm_done
      ⟨[⟨1, 1, ("LEAP"), ("Akmal"), ("+998910175253"), ("m"),
         CStatus.OPEN, false⟩], 2⟩ 1 1).1 1 1).2 = false :=
  ⟨(C9_mark_done_idempotence _ 1 1).1.mpr
    ⟨_, List.mem_singleton.mpr rfl, rfl, rfl, rfl⟩,
   (C9_mark_done_idempotence
      ⟨[⟨1, 1, ("LEAP"), ("Akmal"), ("+998910175253"), ("m"),
         CStatus.OPEN, false⟩], 2⟩ 1 1).2.2.1⟩

/-- C1. Batch channel lock: with a locked batch channel A, picking a
different channel B leaves the draft unchanged and shows the confirmation
prompt; confirming ("proceed") stores the locked channel A in the draft;
"re-select" re-opens the picker without touching the draft. -/
theorem C1_batch_channel_lock (ctx : ChanCtx) (sc_id : String)
    (ch : Channel) (first : DraftItem) (rest : List DraftItem) (A : String)
    (hb : ctx.batch = first :: rest)
    (hA : first.sales_channel_meta = some A)
    (hch : ctx.channelsMap.lookup sc_id = some ch)
    (hne : ch.meta ≠ A) :
    on_channel_pick ctx sc_id =
      (ctx, PickOutcome.forcePrompt first.sales_channel_name ch.name) ∧
    on_channel_force ctx ("ok") =
      (setChan ctx A first.sales_channel_name, ForceOutcome.toGroup) ∧
    on_channel_force ctx ("retry") = (ctx, ForceOutcome.reopenPicker) := by
  refine ⟨?_, ?_, ?_⟩
  · simp only [on_channel_pick, hch, lockedChannel, hb, hA]
    rw [if_pos hne]
  · simp only [on_channel_force, lockedChannel, hb, hA]
    rw [if_neg (by decide)]
  · simp [on_channel_force]

/-- Fixture: a batched item locked to channel A. -/
def itemLockedA : DraftItem := { sales_channel_meta := some ("mA"), sales_channel_name := ("Chan A") }

/-- Fixture: the conversation context of the C1 witness — a one-item batch
locked to channel A while the picker offers channel B. -/
def ctxLockedA : ChanCtx := ⟨{ item := {} }, [itemLockedA], [(("c2"), ⟨("c2"), ("Chan B"), ("mB")⟩)]⟩

/-- C1 witness: the theorem applied to a one-item batch locked to channel
A while the operator picks channel B. -/
theorem C1_batch_channel_lock_witness :
    on_channel_pick ctxLockedA ("c2") =
      (ctxLockedA, PickOutcome.forcePrompt ("Chan A") ("Chan B")) ∧
    on_channel_force ctxLockedA ("ok") =
      (setChan ctxLockedA ("mA") ("Chan A"), ForceOutcome.toGroup) ∧
    on_channel_force ctxLockedA ("retry") =
      (ctxLockedA, ForceOutcome.reopenPicker) :=
  C1_batch_channel_lock ctxLockedA ("c2") ⟨("c2"), ("Chan B"), ("mB")⟩
    itemLockedA [] ("mA") rfl rfl (by decide) (by decide)

/-- Helper: a complete head item whose reporting broadcast raises aborts
the loop right after its order is created. -/
theorem sendItemsLoop_broadcast_fail (env : SendEnv) (it : DraftItem)
    (rest : List DraftItem) (orders sent : Nat)
    (hc : _item_is_complete it env.fs = true)
    (hchat : env.chatConfigured = true)
    (hbf : env.broadcastFails = true) :
    sendItemsLoop env (it :: rest) orders sent =
      Except.error (("broadcast_failed"), orders + 1, sent) := by
  simp only [sendItemsLoop, hc, hchat, hbf]
  rw [if_neg (by simp)]
  simp

/-- C3 (amended). A failed commit precondition — empty brand, missing
counterparty reference, or an incomplete working item (missing field,
missing image on disk, channel or group not chosen) — surfaces an error
message, creates no external order, marks nothing DONE, and ends the
conversation instead of returning to Review. -/
theorem C3_commit_precondition_ends (op : Int) (cid : Nat)
    (d : ConfirmData) (batch : List DraftItem) (env : SendEnv)
    (db : ConfirmDB)
    (h : pyStrip d.brand = ("") ∨ d.counterparty_meta = none ∨
         _item_is_complete d.item env.fs = false) :
    (on_review_send op cid d batch env db).1.errorShown.isSome = true ∧
    (on_review_send op cid d batch env db).1.state = CfState.ended ∧
    (on_review_send op cid d batch env db).1.ordersCreated = 0 ∧
    (on_review_send op cid d batch env db).1.markDoneCalled = false ∧
    (on_review_send op cid d batch env db).2 = db := by
  simp only [on_review_send]
  by_cases hbc : pyStrip d.brand = ("") ∨ d.counterparty_meta = none
  · rw [if_pos hbc]
    exact ⟨rfl, rfl, rfl, rfl, rfl⟩
  · have hinc : _item_is_complete d.item env.fs = false := by
      rcases h with h | h | h
      · exact absurd (Or.inl h) hbc
      · exact absurd (Or.inr h) hbc
      · exact h
    rw [if_neg hbc, if_pos hinc]
    exact ⟨rfl, rfl, rfl, rfl, rfl⟩

/-- Fixture: empty environment and empty table. -/
def envEmpty : SendEnv := { fs := [] }

/-- Fixture: empty confirms table. -/
def dbEmpty : ConfirmDB := ⟨[], 0⟩

/-- Fixture: a draft whose brand is empty while a counterparty is set. -/
def dNoBrand : ConfirmData := { brand := (""), counterparty_meta := some ("cp") }

/-- C3 counterexample: at a concrete commit attempt with a failing
precondition (empty brand) the conversation ends — it does not return to
the Review state as the claim says. -/
theorem C3_counterexample :
    (on_review_send 1 1 dNoBrand [] envEmpty dbEmpty).1.state =
      CfState.ended ∧
    ¬ (on_review_send 1 1 dNoBrand [] envEmpty dbEmpty).1.state =
      CfState.review ∧
    (on_review_send 1 1 dNoBrand [] envEmpty dbEmpty).1.errorShown =
      some ("Brend yoki Kontragent topilmadi.") := by
  decide

/-- C3 witness: the amended theorem applied at the concrete failing
commit attempt. -/
theorem C3_commit_precondition_ends_witness :
    (on_review_send 1 1 dNoBrand [] envEmpty dbEmpty).1.errorShown.isSome
      = true ∧
    (on_review_send 1 1 dNoBrand [] envEmpty dbEmpty).1.state =
      CfState.ended ∧
    (on_review_send 1 1 dNoBrand [] envEmpty dbEmpty).1.ordersCreated = 0 ∧
    (on_review_send 1 1 dNoBrand [] envEmpty dbEmpty).1.markDoneCalled =
      false ∧
    (on_review_send 1 1 dNoBrand [] envEmpty dbEmpty).2 = dbEmpty :=
  C3_commit_precondition_ends 1 1 dNoBrand [] envEmpty dbEmpty
    (Or.inl (by decide))

/-- C4 (amended). The reporting-channel broadcast of the order-confirmation
commit is not isolated from the commit: when every external submission
call succeeds but the broadcast raises, the handler surfaces the error to
the user, the owning record is not marked DONE, session state is not
cleared, and the already-created external order stands. -/
theorem C4_broadcast_failure_surfaced (op : Int) (cid : Nat)
    (d : ConfirmData) (batch : List DraftItem) (env : SendEnv)
    (db : ConfirmDB)
    (hbrand : ¬ pyStrip d.brand = (""))
    (hcp : ¬ d.counterparty_meta = none)
    (hit : _item_is_complete d.item env.fs = true)
    (hbatch : ∀ it ∈ batch, _item_is_complete it env.fs = true)
    (hstore : env.storeFound = true)
    (hchat : env.chatConfigured = true)
    (hbf : env.broadcastFails = true) :
    (on_review_send op cid d batch env db).1.errorShown.isSome = true ∧
    (on_review_send op cid d batch env db).1.markDoneCalled = false ∧
    (on_review_send op cid d batch env db).1.sessionCleared = false ∧
    (on_review_send op cid d batch env db).1.ordersCreated = 1 ∧
    (on_review_send op cid d batch env db).2 = db := by
  simp only [on_review_send]
  rw [if_neg (fun hx => hx.elim hbrand hcp)]
  rw [if_neg (by rw [hit]; exact fun hx => Bool.true_eq_false.mp hx)]
  rw [if_neg (by rw [hstore]; exact fun hx => Bool.true_eq_false.mp hx)]
  have hloop : sendItemsLoop env (batch ++ [_clone_item_for_batch d]) 0 0 =
      Except.error (("broadcast_failed"), 1, 0) := by
    cases batch with
    | nil =>
      rw [List.nil_append]
      exact sendItemsLoop_broadcast_fail env _ [] 0 0 hit hchat hbf
    | cons b bs =>
      rw [List.cons_append]
      exact sendItemsLoop_broadcast_fail env b _ 0 0
        (hbatch b (List.mem_cons_self b bs)) hchat hbf
  rw [hloop]
  exact ⟨rfl, rfl, rfl, rfl, rfl⟩

/-- Fixture: a fully complete draft item whose image exists on disk. -/
def itemDone : DraftItem := { item_type := ("birka karton"), size := ("10x5"), bg_color := ("Oq"), text_color := ("Qora"), qty := some 3000, qty_unit_lat := ("sht"), qty_unit_ru := ("шт"), price_uzs := some 450, sales_channel_meta := some ("mA"), sales_channel_name := ("Chan A"), group_meta := some ("g1"), group_name := ("birka karton"), image_path := ("img.jpg") }

/-- Fixture: a complete draft with brand and counterparty set. -/
def dDone : ConfirmData := { brand := ("LEAP"), counterparty_meta := some ("cp"), item := itemDone }

/-- Fixture: environment where the image file exists, external calls
succeed, the reporting channel is configured and its broadcast raises. -/
def envBroadcastFail : SendEnv := { fs := [("img.jpg")], broadcastFails := true }

/-- Fixture: confirms table with the single OPEN row the commit owns. -/
def dbOneOpen : ConfirmDB := ⟨[⟨1, 1, ("LEAP"), ("Akmal"), ("+998910175253"), ("m"), CStatus.OPEN, false⟩], 2⟩

/-- C4 counterexample: at a concrete successful submission whose broadcast
raises, the error is surfaced, DONE-marking and session clearing are
skipped and the OPEN row stays OPEN — contradicting the claim that a
broadcast failure is never surfaced and never affects the committed
result. -/
theorem C4_counterexample :
    (on_review_send 1 1 dDone [] envBroadcastFail dbOneOpen).1.errorShown =
      some ("MoySklad yuborishda xatolik: broadcast_failed") ∧
    (on_review_send 1 1 dDone [] envBroadcastFail dbOneOpen).1.ordersCreated
      = 1 ∧
    (on_review_send 1 1 dDone [] envBroadcastFail dbOneOpen).1.markDoneCalled
      = false ∧
    (on_review_send 1 1 dDone [] envBroadcastFail dbOneOpen).1.sessionCleared
      = false ∧
    (on_review_send 1 1 dDone [] envBroadcastFail dbOneOpen).2 = dbOneOpen := by
  decide

/-- C4 witness: the amended theorem applied at the concrete broadcast
failure. -/
theorem C4_broadcast_failure_surfaced_witness :
    (on_review_send 1 1 dDone [] envBroadcastFail dbOneOpen).1.errorShown.isSome
      = true ∧
    (on_review_send 1 1 dDone [] envBroadcastFail dbOneOpen).1.markDoneCalled
      = false ∧
    (on_review_send 1 1 dDone [] envBroadcastFail dbOneOpen).1.sessionCleared
      = false ∧
    (on_review_send 1 1 dDone [] envBroadcastFail dbOneOpen).1.ordersCreated
      = 1 ∧
    (on_review_send 1 1 dDone [] envBroadcastFail dbOneOpen).2 = dbOneOpen :=
  C4_broadcast_failure_surfaced 1 1 dDone [] envBroadcastFail dbOneOpen
    (by decide) (by decide) (by decide) (by simp) rfl rfl rfl

/-- Helper: the last element of a list is a member. -/
theorem mem_of_getLast?_eq {l : List Char} {d : Char}
    (h : l.getLast? = some d) : d ∈ l := by
  obtain ⟨l2, rfl⟩ := List.getLast?_eq_some_iff.mp h
  exact List.mem_append_right _ (List.mem_singleton.mpr rfl)

/-- C6 counterexample: an input with four dash-separated segments — not
exactly three — is still parsed (the limited split keeps everything after
the second dash as the phone field), contradicting the claim that such
inputs return no match. -/
theorem C6_counterexample :
    (splitOnChar ('-') (String.data ("LEAP-Akmal-910-175253"))).length = 4 ∧
    _parse_brand_client_phone ("LEAP-Akmal-910-175253") =
      some (("LEAP"), ("Akmal"), ("+998910175253")) := by
  decide

/-- C6 (amended). Every successful parse returns a brand that is
whitespace-trimmed, upper-cased and nonempty; an input with fewer than
three dash-separated segments never parses (the fallback fires); but
inputs with more than three segments may parse, the remainder after the
second dash serving as the phone field. -/
theorem C6_quick_create_amended (s : String) :
    (∀ b c p, _parse_brand_client_phone s = some (b, c, p) →
      pyStrip b = b ∧ pyUpper b = b ∧ ¬ b = ("")) ∧
    ((splitOnChar ('-') (stripL s.data)).length < 3 →
      _parse_brand_client_phone s = none) := by
  constructor
  · intro b c p h
    simp only [_parse_brand_client_phone] at h
    rcases hm : (splitDash2 (stripL s.data)).map (fun p => stripL p) with
      _ | ⟨p0, _ | ⟨p1, _ | ⟨p2, _ | ⟨p3, tl⟩⟩⟩⟩ <;> rw [hm] at h
    · exact absurd h (by simp)
    · exact absurd h (by simp)
    · exact absurd h (by simp)
    · replace h : (if pyUpper (pyStrip ⟨p0⟩) = ("") ∨ pyStrip ⟨p1⟩ = ("") ∨
            _normalize_phone_uz ⟨p2⟩ = ("") then none
          else some (pyUpper (pyStrip ⟨p0⟩), pyStrip ⟨p1⟩,
            _normalize_phone_uz ⟨p2⟩)) = some (b, c, p) := h
      by_cases hc : pyUpper (pyStrip ⟨p0⟩) = ("") ∨ pyStrip ⟨p1⟩ = ("") ∨
          _normalize_phone_uz ⟨p2⟩ = ("")
      · rw [if_pos hc] at h
        exact absurd h (by simp)
      · rw [if_neg hc] at h
        simp only [Option.some.injEq, Prod.mk.injEq] at h
        obtain ⟨rfl, rfl, rfl⟩ := h
        exact ⟨pyStrip_brand_key _, pyUpper_brand_key _,
          fun he => hc (Or.inl he)⟩
    · exact absurd h (by simp)
  · intro hlen
    simp only [_parse_brand_client_phone]
    have hsd : splitDash2 (stripL s.data) =
        splitOnChar ('-') (stripL s.data) := by
      unfold splitDash2
      rw [if_pos (by omega)]
    rw [hsd]
    have hml : ((splitOnChar ('-') (stripL s.data)).map
        (fun p => stripL p)).length < 3 := by
      rw [List.length_map]
      exact hlen
    generalize hm : (splitOnChar ('-') (stripL s.data)).map
      (fun p => stripL p) = m
    rw [hm] at hml
    rcases m with _ | ⟨p0, _ | ⟨p1, _ | ⟨p2, tl⟩⟩⟩
    · rfl
    · rfl
    · rfl
    · simp only [List.length_cons] at hml
      omega

/-- C6 witness: the amended theorem applied at a parsed triple and at a
dashless search query. -/
theorem C6_quick_create_amended_witness :
    (pyStrip ("LEAP") = ("LEAP") ∧ pyUpper ("LEAP") = ("LEAP") ∧
      ¬ ("LEAP") = ("")) ∧
    _parse_brand_client_phone ("Akmal 910175253") = none :=
  ⟨(C6_quick_create_amended ("leap -Akmal-910175253")).1 ("LEAP") ("Akmal")
      ("+998910175253") (by decide),
   (C6_quick_create_amended ("Akmal 910175253")).2 (by decide)⟩

/-- Helper: the size pipeline distributes over list append. -/
theorem sizePipe_append (a b : List Char) :
    sizePipe (a ++ b) = sizePipe a ++ sizePipe b := by
  simp only [sizePipe, List.map_append, List.filter_append]

/-- Helper: the character classes of a digit needed below: a digit is not
the Cyrillic `х`, the asterisk, the space or the Latin `x`. -/
theorem digit_ne_special (c : Char) (h : pyIsDigit c = true) :
    c ≠ ('х') ∧ c ≠ ('*') ∧ c ≠ (' ') ∧ c ≠ ('x') :=
  ⟨fun he => absurd (he ▸ h) (by decide),
   fun he => absurd (he ▸ h) (by decide),
   fun he => absurd (he ▸ h) (by decide),
   fun he => absurd (he ▸ h) (by decide)⟩

/-- Helper: the size pipeline fixes a string of digits. -/
theorem sizePipe_digits (l : List Char)
    (h : ∀ c ∈ l, pyIsDigit c = true) : sizePipe l = l := by
  unfold sizePipe
  have h1 : l.map pyLowerChar = l :=
    (List.map_congr_left
      (fun c hc => pyLowerChar_of_digit c (h c hc))).trans (List.map_id _)
  rw [h1]
  have h2 : l.map (fun c => if c = ('х') then ('x') else c) = l :=
    (List.map_congr_left
      (fun c hc => if_neg (digit_ne_special c (h c hc)).1)).trans
      (List.map_id _)
  rw [h2]
  have h3 : l.map (fun c => if c = ('*') then ('x') else c) = l :=
    (List.map_congr_left
      (fun c hc => if_neg (digit_ne_special c (h c hc)).2.1)).trans
      (List.map_id _)
  rw [h3]
  exact List.filter_eq_self.mpr
    (fun c hc => decide_eq_true (digit_ne_special c (h c hc)).2.2.1)

/-- Helper: a digit-delimited list is unchanged by stripping. -/
theorem stripL_digit_ends (a mid b : List Char)
    (ha : a ≠ []) (had : ∀ c ∈ a, pyIsDigit c = true)
    (hb : b ≠ []) (hbd : ∀ c ∈ b, pyIsDigit c = true) :
    stripL (a ++ mid ++ b) = a ++ mid ++ b := by
  apply stripL_eq_self
  · intro c hc
    rcases a with _ | ⟨a0, a1⟩
    · exact absurd rfl ha
    · simp only [List.cons_append, List.head?] at hc
      obtain rfl := Option.some.inj hc
      exact pyIsDigit_not_ws _ (had _ (List.mem_cons_self _ _))
  · intro c hc
    rw [List.getLast?_append] at hc
    cases hbl : b.getLast? with
    | none => exact absurd (List.getLast?_eq_none_iff.mp hbl) hb
    | some d =>
      rw [hbl] at hc
      simp only [Option.or] at hc
      obtain rfl := Option.some.inj hc
      exact pyIsDigit_not_ws _ (hbd _ (mem_of_getLast?_eq hbl))

/-- Helper: `sizeNormalize` on digits-separator-digits input reduces to the
pipeline on the separator alone. -/
theorem sizeNormalize_split (a mid b : List Char)
    (ha : a ≠ []) (had : ∀ c ∈ a, pyIsDigit c = true)
    (hb : b ≠ []) (hbd : ∀ c ∈ b, pyIsDigit c = true) :
    sizeNormalize ⟨a ++ mid ++ b⟩ = ⟨a ++ sizePipe mid ++ b⟩ := by
  unfold sizeNormalize
  rw [data_mk, stripL_digit_ends a mid b ha had hb hbd,
    sizePipe_append, sizePipe_append, sizePipe_digits a had,
    sizePipe_digits b hbd]

/-- C7 counterexample: the four example inputs of the claim do normalize
identically, but the multiplication-sign variant `10×5` (U+00D7) — listed
by the claim among the accepted separators — is left unchanged and
rejected: the code only replaces the Cyrillic letter `х`/`Х` (U+0445 and
U+0425) and `*`. -/
theorem C7_counterexample :
    sizeNormalize ("10x5") = ("10x5") ∧
    sizeNormalize ("10Х5") = ("10x5") ∧
    sizeNormalize ("10*5") = ("10x5") ∧
    sizeNormalize ("10 x 5") = ("10x5") ∧
    sizeNormalize ("10×5") = ("10×5") ∧
    on_size ("10×5") = (none, CfState.size) := by
  decide

/-- C7 (amended). For every pair of digit dimensions, the separators `x`,
`X`, Cyrillic `х`, Cyrillic `Х` and `*`, with or without surrounding
spaces, normalize to the identical canonical `x`-separated string and the
state advances; the multiplication sign `×` is not among the recognized
variants; a separator-free digit input is rejected and the size state
re-prompts. -/
theorem C7_size_separator_amended (a b : List Char)
    (ha : a ≠ []) (had : ∀ c ∈ a, pyIsDigit c = true)
    (hb : b ≠ []) (hbd : ∀ c ∈ b, pyIsDigit c = true) :
    sizeNormalize ⟨a ++ [('x')] ++ b⟩ = ⟨a ++ [('x')] ++ b⟩ ∧
    sizeNormalize ⟨a ++ [('X')] ++ b⟩ = ⟨a ++ [('x')] ++ b⟩ ∧
    sizeNormalize ⟨a ++ [('х')] ++ b⟩ = ⟨a ++ [('x')] ++ b⟩ ∧
    sizeNormalize ⟨a ++ [('Х')] ++ b⟩ = ⟨a ++ [('x')] ++ b⟩ ∧
    sizeNormalize ⟨a ++ [('*')] ++ b⟩ = ⟨a ++ [('x')] ++ b⟩ ∧
    sizeNormalize ⟨a ++ [(' '), ('x'), (' ')] ++ b⟩ = ⟨a ++ [('x')] ++ b⟩ ∧
    on_size ⟨a ++ [('x')] ++ b⟩ = (some ⟨a ++ [('x')] ++ b⟩, CfState.bg) ∧
    on_size ⟨a ++ b⟩ = (none, CfState.size) := by
  have hx := sizeNormalize_split a [('x')] b ha had hb hbd
  rw [show sizePipe [('x')] = [('x')] from by decide] at hx
  refine ⟨hx, ?_, ?_, ?_, ?_, ?_, ?_, ?_⟩
  · rw [sizeNormalize_split a [('X')] b ha had hb hbd,
      show sizePipe [('X')] = [('x')] from by decide]
  · rw [sizeNormalize_split a [('х')] b ha had hb hbd,
      show sizePipe [('х')] = [('x')] from by decide]
  · rw [sizeNormalize_split a [('Х')] b ha had hb hbd,
      show sizePipe [('Х')] = [('x')] from by decide]
  · rw [sizeNormalize_split a [('*')] b ha had hb hbd,
      show sizePipe [('*')] = [('x')] from by decide]
  · rw [sizeNormalize_split a [(' '), ('x'), (' ')] b ha had hb hbd,
      show sizePipe [(' '), ('x'), (' ')] = [('x')] from by decide]
  · simp only [on_size, hx, data_mk]
    rw [if_pos (by simp)]
  · have hnorm : sizeNormalize ⟨a ++ b⟩ = ⟨a ++ b⟩ := by
      have := sizeNormalize_split a [] b ha had hb hbd
      simp only [List.append_nil] at this
      rw [show sizePipe [] = [] from rfl] at this
      simpa using this
    simp only [on_size, hnorm, data_mk]
    rw [if_neg]
    intro hmem
    rcases List.mem_append.mp hmem with hmem | hmem
    · exact absurd (had _ hmem) (by decide)
    · exact absurd (hbd _ hmem) (by decide)

/-- C7 witness: the amended theorem applied at the dimensions 10 and 5. -/
theorem C7_size_separator_amended_witness :
    sizeNormalize ("10x5") = (("10x5") : String) ∧
    on_size ("105") = (none, CfState.size) := by
  have h := C7_size_separator_amended [('1'), ('0')] [('5')]
    (by decide) (by decide) (by decide) (by decide)
  exact ⟨h.1, h.2.2.2.2.2.2.2⟩

/-- Helper: a successful quantity-regex match starts at a digit: the
whitespace-dropped input begins with a digit that also heads group 1. -/
theorem qtyMatch_some_shape {l : List Char} {numPart unitPart : List Char}
    (h : qtyMatch l = some (numPart, unitPart)) :
    ∃ c rest2, l.dropWhile pyIsWs = c :: rest2 ∧ pyIsDigit c = true ∧
      ∃ nr, numPart = c :: nr := by
  simp only [qtyMatch] at h
  cases hl1 : l.dropWhile pyIsWs with
  | nil =>
    rw [hl1] at h
    exact absurd h (by simp)
  | cons c l2 =>
    rw [hl1] at h
    replace h : (if pyIsDigit c = true then
        if (List.dropWhile reLetter (List.dropWhile
              (fun x => pyIsDigit x || pyIsWs x) (c :: l2))).all pyIsWs
            = true then
          some (List.takeWhile (fun x => pyIsDigit x || pyIsWs x) (c :: l2),
            List.takeWhile reLetter (List.dropWhile
              (fun x => pyIsDigit x || pyIsWs x) (c :: l2)))
        else none
      else none) = some (numPart, unitPart) := h
    by_cases hc : pyIsDigit c = true
    · rw [if_pos hc] at h
      by_cases htail : (((c :: l2).dropWhile
            (fun x => pyIsDigit x || pyIsWs x)).dropWhile reLetter).all
            pyIsWs = true
      · rw [if_pos htail] at h
        simp only [Option.some.injEq, Prod.mk.injEq] at h
        obtain ⟨hnum, _⟩ := h
        refine ⟨c, l2, rfl, hc, l2.takeWhile
          (fun x => pyIsDigit x || pyIsWs x), ?_⟩
        rw [← hnum, List.takeWhile_cons, if_pos (by simp [hc])]
      · rw [if_neg htail] at h
        exact absurd h (by simp)
    · rw [if_neg hc] at h
      exact absurd h (by simp)

/-- C8 counterexample: the input `abc3000`, which does not begin with a
digit, is nonetheless accepted with quantity 3000 — the digit-concatenation
fallback fires — contradicting the claim that accepted inputs require
leading integer digits. -/
theorem C8_counterexample :
    _parse_qty_and_unit ("abc3000") = (some 3000, (""), ("")) ∧
    (pyStrip (pyLower ("abc3000"))).data.head? = some ('a') ∧
    pyIsDigit ('a') = false := by
  decide

/-- C8 (amended). The parser rejects exactly the inputs containing no
digit at all: the digits-then-unit form maps recognized unit tokens to the
fixed piece, roll and kilogram classes and keeps an unrecognized token
verbatim, while any other input with a digit is accepted through the
fallback that concatenates all its digits with an empty unit. -/
theorem C8_qty_amended (s : String) :
    ((_parse_qty_and_unit s).1 = none ↔
      digitsL (pyStrip (pyLower s)).data = []) ∧
    _parse_qty_and_unit ("3000") = (some 3000, (""), ("")) ∧
    _parse_qty_and_unit ("3000 sht") = (some 3000, ("sht"), ("шт")) ∧
    _parse_qty_and_unit ("3000 kg") = (some 3000, ("kg"), ("кг")) ∧
    _parse_qty_and_unit ("3000 metr") = (some 3000, ("metr"), ("metr")) ∧
    _parse_qty_and_unit ("abc") = (none, (""), ("")) ∧
    _parse_qty_and_unit ("abc3000") = (some 3000, (""), ("")) := by
  refine ⟨?_, by decide, by decide, by decide, by decide, by decide,
    by decide⟩
  simp only [_parse_qty_and_unit]
  by_cases ht : pyStrip (pyLower s) = ("")
  · rw [if_pos ht, ht]
    simp [digitsL]
  · rw [if_neg ht]
    cases hq : qtyMatch (pyStrip (pyLower s)).data with
    | none =>
      simp only [hq]
      by_cases hd : digitsL (pyStrip (pyLower s)).data = []
      · rw [if_pos hd]
        simp [hd]
      · rw [if_neg hd]
        simp [hd]
    | some pr =>
      obtain ⟨numPart, unitPart⟩ := pr
      obtain ⟨c, rest2, hl1, hdig, nr, hnum⟩ := qtyMatch_some_shape hq
      have hnumne : ¬ digitsL numPart = [] := by
        rw [hnum]
        simp [digitsL, List.filter_cons, hdig]
      have hRHS : ¬ digitsL (pyStrip (pyLower s)).data = [] := by
        rw [← digitsL_dropWhile_ws, hl1]
        simp [digitsL, List.filter_cons, hdig]
      simp only [hq]
      rw [if_neg hnumne]
      constructor
      · intro hL
        exfalso
        revert hL
        split_ifs <;> simp
      · intro hR
        exact absurd hR hRHS

/-- C8 witness: the amended theorem applied at a digitless input. -/
theorem C8_qty_amended_witness :
    (_parse_qty_and_unit ("x")).1 = none :=
  (C8_qty_amended ("x")).1.mpr (by decide)

/-- Helper: `latestMatch` over rows that all fail the condition is empty. -/
theorem latestMatch_eq_none {p : ConfirmRow → Bool} :
    ∀ {rows : List ConfirmRow}, (∀ r ∈ rows, p r = false) →
      latestMatch p rows = none := by
  have aux : ∀ (rows : List ConfirmRow) (acc : Option ConfirmRow),
      (∀ r ∈ rows, p r = false) →
      rows.foldl (fun acc r =>
        if p r then
          match acc with
          | none => some r
          | some a => if a.id ≤ r.id then some r else some a
        else acc) acc = acc := by
    intro rows
    induction rows with
    | nil => intro acc _; rfl
    | cons r rs ih =>
      intro acc h
      simp only [List.foldl_cons]
      rw [if_neg (by rw [h r (List.mem_cons_self r rs)]; simp)]
      exact ih acc (fun x hx => h x (List.mem_cons_of_mem r hx))
  intro rows h
  exact aux rows none h

/-- Helper: appending one matching row to all-failing rows makes it the
latest match. -/
theorem latestMatch_append_single {p : ConfirmRow → Bool}
    {rows : List ConfirmRow} {r : ConfirmRow}
    (h : ∀ x ∈ rows, p x = false) (hr : p r = true) :
    latestMatch p (rows ++ [r]) = some r := by
  unfold latestMatch
  rw [List.foldl_append]
  have hrows := latestMatch_eq_none h
  unfold latestMatch at hrows
  rw [hrows]
  simp [hr]

/-- The OPEN row inserted by the upsert's create path for a
non-degenerate key. -/
def upsertRow (db : ConfirmDB) (op : Int) (brand c phone m : String) : ConfirmRow := { id := db.nextId, operator_id := op, brand := pyStrip (pyUpper (pyStrip brand)), client_name := pyStrip (pyStrip c), phone_plus := pyStrip (pyStrip phone), counterparty_meta := m, status := CStatus.OPEN, done_at := false }

/-- Helper: with a non-degenerate key and no matching OPEN row, the upsert
inserts a fresh OPEN row and returns its id. -/
theorem upsert_insert_of_none (db : ConfirmDB) (op : Int)
    (brand c phone m : String)
    (hfb : ¬(op = 0 ∨ pyUpper (pyStrip brand) = ("") ∨ pyStrip phone = ("")))
    (hnone : ∀ r ∈ db.rows,
      upsertCond op (pyUpper (pyStrip brand)) (pyStrip phone) r = false) :
    create_confirm_upsert db op brand c phone m =
      (⟨db.rows ++ [upsertRow db op brand c phone m], db.nextId + 1⟩,
        db.nextId) := by
  simp only [create_confirm_upsert]
  rw [if_neg hfb, latestMatch_eq_none hnone]
  rfl

/-- Helper: with a non-degenerate key and a latest matching OPEN row, the
upsert rewrites that row's client name and counterparty meta in place and
returns its id. -/
theorem upsert_update_of_found (db : ConfirmDB) (op : Int)
    (brand c phone m : String) (r : ConfirmRow)
    (hfb : ¬(op = 0 ∨ pyUpper (pyStrip brand) = ("") ∨ pyStrip phone = ("")))
    (hfound : latestMatch
        (upsertCond op (pyUpper (pyStrip brand)) (pyStrip phone)) db.rows =
      some r) :
    create_confirm_upsert db op brand c phone m =
      (⟨db.rows.map (fun x =>
          if decide (x.operator_id = op ∧ x.id = r.id ∧
                     x.status = CStatus.OPEN) then
            { x with client_name := pyStrip c, counterparty_meta := m }
          else x), db.nextId⟩,
        r.id) := by
  simp only [create_confirm_upsert]
  rw [if_neg hfb, hfound]

/-- C2 (amended). For every key with a nonzero operator id and nonempty
normalized brand and phone, starting from a well-formed table with no OPEN
row for the key, calling the upsert twice with different client names
leaves exactly one OPEN row for the key, returns the same row id both
times, and that row's client name is the second call's value. -/
theorem C2_upsert_idempotence (db : ConfirmDB) (op : Int)
    (brand c1 c2 phone m1 m2 : String)
    (hwf : ∀ r ∈ db.rows, r.id < db.nextId)
    (hop : ¬ op = 0)
    (hbk : ¬ pyUpper (pyStrip brand) = (""))
    (hpk : ¬ pyStrip phone = (""))
    (hnone : ∀ r ∈ db.rows,
      upsertCond op (pyUpper (pyStrip brand)) (pyStrip phone) r = false) :
    (create_confirm_upsert (create_confirm_upsert db op brand c1 phone m1).1
        op brand c2 phone m2).2 =
      (create_confirm_upsert db op brand c1 phone m1).2 ∧
    (create_confirm_upsert (create_confirm_upsert db op brand c1 phone m1).1
        op brand c2 phone m2).1.rows.filter
        (upsertCond op (pyUpper (pyStrip brand)) (pyStrip phone)) =
      [{ id := db.nextId, operator_id := op, brand := pyUpper (pyStrip brand), client_name := pyStrip c2, phone_plus := pyStrip phone, counterparty_meta := m2, status := CStatus.OPEN, done_at := false }] := by
  have hfb : ¬(op = 0 ∨ pyUpper (pyStrip brand) = ("") ∨
      pyStrip phone = ("")) := by
    intro hx
    rcases hx with h | h | h
    exacts [hop h, hbk h, hpk h]
  have h1 := upsert_insert_of_none db op brand c1 phone m1 hfb hnone
  have hpR1 : upsertCond op (pyUpper (pyStrip brand)) (pyStrip phone)
      (upsertRow db op brand c1 phone m1) = true := by
    simp only [upsertCond]
    apply decide_eq_true
    refine ⟨rfl, rfl, ?_, ?_⟩
    · show pyUpper (pyStrip (pyStrip (pyUpper (pyStrip brand)))) =
        pyUpper (pyStrip brand)
      rw [pyStrip_idem, pyStrip_brand_key, pyUpper_brand_key]
    · show pyStrip (pyStrip (pyStrip phone)) = pyStrip phone
      rw [pyStrip_idem, pyStrip_idem]
  have hlm : latestMatch
      (upsertCond op (pyUpper (pyStrip brand)) (pyStrip phone))
      (db.rows ++ [upsertRow db op brand c1 phone m1]) =
      some (upsertRow db op brand c1 phone m1) :=
    latestMatch_append_single hnone hpR1
  have h2 := upsert_update_of_found
    ⟨db.rows ++ [upsertRow db op brand c1 phone m1], db.nextId + 1⟩
    op brand c2 phone m2 (upsertRow db op brand c1 phone m1) hfb hlm
  rw [h1]
  dsimp only
  rw [h2]
  dsimp only
  have hid : (upsertRow db op brand c1 phone m1).id = db.nextId := rfl
  refine ⟨hid, ?_⟩
  rw [List.map_append]
  have hmap : db.rows.map (fun x =>
      if decide (x.operator_id = op ∧
          x.id = (upsertRow db op brand c1 phone m1).id ∧
          x.status = CStatus.OPEN) then
        { x with client_name := pyStrip c2, counterparty_meta := m2 }
      else x) = db.rows := by
    refine (List.map_congr_left ?_).trans (List.map_id _)
    intro x hx
    refine if_neg ?_
    simp only [decide_eq_true_eq, not_and]
    intro _ hxid
    have hlt := hwf x hx
    exact absurd hxid (by rw [hid]; omega)
  rw [hmap]
  have hone : [upsertRow db op brand c1 phone m1].map (fun x =>
      if decide (x.operator_id = op ∧
          x.id = (upsertRow db op brand c1 phone m1).id ∧
          x.status = CStatus.OPEN) then
        { x with client_name := pyStrip c2, counterparty_meta := m2 }
      else x) =
      [{ upsertRow db op brand c1 phone m1 with client_name := pyStrip c2, counterparty_meta := m2 }] := by
    simp only [List.map_cons, List.map_nil]
    rw [if_pos (decide_eq_true
      (⟨rfl, trivial, rfl⟩ :
        (upsertRow db op brand c1 phone m1).operator_id = op ∧ True ∧
        (upsertRow db op brand c1 phone m1).status = CStatus.OPEN))]
  rw [hone, List.filter_append]
  have hnil : db.rows.filter
      (upsertCond op (pyUpper (pyStrip brand)) (pyStrip phone)) = [] :=
    List.filter_eq_nil_iff.mpr
      (fun r hr => by rw [hnone r hr]; simp)
  rw [hnil, List.nil_append]
  have hpR2 : upsertCond op (pyUpper (pyStrip brand)) (pyStrip phone)
      { upsertRow db op brand c1 phone m1 with client_name := pyStrip c2, counterparty_meta := m2 } = true := by
    simp only [upsertCond]
    apply decide_eq_true
    refine ⟨rfl, rfl, ?_, ?_⟩
    · show pyUpper (pyStrip (pyStrip (pyUpper (pyStrip brand)))) =
        pyUpper (pyStrip brand)
      rw [pyStrip_idem, pyStrip_brand_key, pyUpper_brand_key]
    · show pyStrip (pyStrip (pyStrip phone)) = pyStrip phone
      rw [pyStrip_idem, pyStrip_idem]
  rw [List.filter_cons, if_pos hpR2, List.filter_nil]
  simp [upsertRow, pyStrip_brand_key, pyStrip_idem]

/-- C2 counterexample: with the degenerate key of an empty brand the
upsert falls back to a plain insert, so two calls with the same
(operator, brand, phone) key yield two OPEN rows with different ids —
contradicting the claim's quantification over every key. -/
theorem C2_counterexample :
    ¬ (create_confirm_upsert
        (create_confirm_upsert dbEmpty 1 ("") ("A") ("+998901112233")
          ("m1")).1 1 ("") ("B") ("+998901112233") ("m2")).2 =
      (create_confirm_upsert dbEmpty 1 ("") ("A") ("+998901112233")
        ("m1")).2 ∧
    ((create_confirm_upsert
        (create_confirm_upsert dbEmpty 1 ("") ("A") ("+998901112233")
          ("m1")).1 1 ("") ("B") ("+998901112233") ("m2")).1.rows.filter
      (fun r => decide (r.operator_id = 1 ∧ r.brand = ("") ∧
        r.phone_plus = ("+998901112233") ∧
        r.status = CStatus.OPEN))).length = 2 := by
  decide

/-- C2 witness: the amended theorem applied at the empty table and the key
(1, "leap ", " +998901112233"). -/
theorem C2_upsert_idempotence_witness :
    (create_confirm_upsert
        (create_confirm_upsert dbEmpty 1 ("leap ") ("A") (" +998901112233")
          ("m1")).1 1 ("leap ") ("B") (" +998901112233") ("m2")).2 =
      (create_confirm_upsert dbEmpty 1 ("leap ") ("A") (" +998901112233")
        ("m1")).2 ∧
    (create_confirm_upsert
        (create_confirm_upsert dbEmpty 1 ("leap ") ("A") (" +998901112233")
          ("m1")).1 1 ("leap ") ("B") (" +998901112233") ("m2")).1.rows.filter
        (upsertCond 1 (pyUpper (pyStrip ("leap "))) (pyStrip (" +998901112233"))) =
      [{ id := dbEmpty.nextId, operator_id := 1, brand := pyUpper (pyStrip ("leap ")), client_name := pyStrip ("B"), phone_plus := pyStrip (" +998901112233"), counterparty_meta := ("m2"), status := CStatus.OPEN, done_at := false }] :=
  C2_upsert_idempotence dbEmpty 1 ("leap ") ("A") ("B") (" +998901112233")
    ("m1") ("m2") (by simp [dbEmpty]) (by decide) (by decide) (by decide)
    (by simp [dbEmpty])

end ZBot
